import Mathlib

/-!
Verification development for the in-memory zone finder
(`src/lib/datasrc/memory/zone_finder.cc`).

The pure classification logic of the finder (`cutCallback`, `findNode`,
`find_internal`, `createFindResult`, `getClosestNSEC`, `getNSECForNXRRSET`,
`findNSEC3`, `InMemoryZoneFinderNSEC3Calculate`) is embedded shallowly below,
following the source line by line.  The DomainTree ("ZoneTree") container, the
SHA-1 primitive and the base32hex encoder are dependencies of this translation
unit whose implementations live outside the excerpted sources; they are
modelled from the specification's contract for them (an abstract `find`
returning an outcome, a stop node, a search path with the last comparison
relation, and the state mutated by the cut callbacks; abstract digest and
encoder functions for the hash).
-/

namespace ZoneFinderModel

/-- DNS names are modelled as label lists, most specific label first
(so `a.b.example.` is `["a", "b", "example"]`). -/
abbrev DName := List String

/-- RR type codes (subset used by the finder), with their IANA numbers. -/
def rrA : Nat := 1
def rrNS : Nat := 2
def rrCNAME : Nat := 5
def rrTXT : Nat := 16
def rrDS : Nat := 43
def rrDNAME : Nat := 39
def rrNSEC : Nat := 47
def rrNSEC3 : Nat := 50
def rrANY : Nat := 255

/-- One `RdataSet` in the per-node linked list.  The rdata payload is opaque
to the finder; a serial number keeps distinct sets distinguishable. -/
structure RdataSet where
  rrtype : Nat
  serial : Nat
deriving DecidableEq

/-- Embedding of `RdataSet::find(head, type)`: scan the node's list for the
first set of the requested type. -/
def findRdata (data : List RdataSet) (t : Nat) : Option RdataSet :=
  data.find? (fun r => r.rrtype == t)

/-- A node of the zone tree.  `callback` is `ZoneNode::FLAG_CALLBACK`,
`wildcardNode` is `ZoneData::WILDCARD_NODE`; `data` is the rdata-set list
(`getData()`; the node is empty iff the list is). -/
structure ZoneNode where
  name : DName
  callback : Bool
  wildcardNode : Bool
  data : List RdataSet
deriving DecidableEq

/-- Embedding of `ZoneNode::isEmpty()`. -/
def ZoneNode.isEmpty (n : ZoneNode) : Bool := n.data.isEmpty

/-- The relation part of `isc::dns::NameComparisonResult`. -/
inductive Relation where
  | none
  | equal
  | superdomain
  | subdomain
  | commonancestor
deriving DecidableEq

/-- Result codes of `DomainTree::find`. -/
inductive TreeResult where
  | exactmatch
  | partialmatch
  | notfound
deriving DecidableEq

/-- Embedding of `FindState` (zone_finder.cc): the mutable state passed to the
cut callback, recording the highest zone cut or DNAME seen during descent. -/
structure FindState where
  zonecutNode : Option ZoneNode
  dnameNode : Option ZoneNode
  rrset : Option RdataSet
  glueOk : Bool
deriving DecidableEq

/-- Modelled from the spec: the search path (`ZoneChain`) produced by
`DomainTree::find`.  It records the final name-comparison relation and the
sequence of nodes that successive `previousNode` calls would yield (the
in-order predecessors of the searched name, nearest first). -/
structure NodePath where
  lastRelation : Relation
  prevChain : List ZoneNode
deriving DecidableEq

/-- Modelled from the spec: everything a single `DomainTree::find` call hands
back — its result code, the found/stop node, the search path, and the
`FindState` after the cut callbacks fired during descent. -/
structure TreeFindOut where
  result : TreeResult
  node : Option ZoneNode
  path : NodePath
  state : FindState
deriving DecidableEq

/-- Modelled from the spec: the `DomainTree` ("ZoneTree") container, absent
from the excerpted sources, abstracted as its `find` operation.  `find` takes
the searched labels and the callback state at entry and returns the full
outcome; the spec-level contract (callbacks fired on `CALLBACK` nodes,
short-circuiting on a `true` return) is assumed via hypotheses where needed. -/
structure TreeModel where
  find : DName → FindState → TreeFindOut

/-- Per-zone metadata used by the finder: origin node and signing status
(`ZoneData::isSigned` / `ZoneData::isNSEC3Signed`). -/
structure ZoneDataM where
  origin : ZoneNode
  signedZone : Bool
  nsec3Signed : Bool
deriving DecidableEq

/-- The `ZoneFinder::FindOptions` bitmask, as a record of its three bits. -/
structure FindOptions where
  glueOk : Bool
  dnssec : Bool
  noWildcard : Bool
deriving DecidableEq

/-- Embedding of `cutCallback` (zone_finder.cc lines 146-193).  Returns the
callback's boolean (whether to stop the descent) together with the updated
state; `Option.none` stands for the unreachable `assert(0)` branch (callback
on a node with neither DNAME nor NS). -/
def cutCallback (node : ZoneNode) (state : FindState) : Option (Bool × FindState) :=
  match findRdata node.data rrDNAME with
  | some d =>
      some (true, { state with dnameNode := some node, rrset := some d })
  | none =>
      match findRdata node.data rrNS with
      | some ns =>
          if state.zonecutNode.isSome then
            some (false, state)
          else
            some (!state.glueOk,
                  { state with zonecutNode := some node, rrset := some ns })
      | none => none

/-- Embedding of `getClosestNSEC` (zone_finder.cc lines 259-289): walk the
previous-node chain of the search path and return the first non-empty node
carrying an NSEC rdata set, unless the zone is unsigned, NSEC3-signed, or
DNSSEC data was not requested.  Exhausting the chain is the code's
`assert(false)` (broken zone); it is modelled as no witness. -/
def getClosestNSECChain : List ZoneNode → Option (ZoneNode × RdataSet)
  | [] => Option.none
  | n :: rest =>
      if !n.isEmpty then
        match findRdata n.data rrNSEC with
        | some found => some (n, found)
        | none => getClosestNSECChain rest
      else
        getClosestNSECChain rest

/-- The guard and the walk of `getClosestNSEC` combined, as in the source. -/
def getClosestNSEC (zd : ZoneDataM) (path : NodePath) (options : FindOptions) :
    Option (ZoneNode × RdataSet) :=
  if !zd.signedZone || !options.dnssec || zd.nsec3Signed then
    Option.none
  else
    getClosestNSECChain path.prevChain

/-- Embedding of `getNSECForNXRRSET` (zone_finder.cc lines 295-310): the
node's own NSEC rdata set, when the zone is NSEC-signed and DNSSEC was
requested. -/
def getNSECForNXRRSET (zd : ZoneDataM) (options : FindOptions) (node : ZoneNode) :
    Option RdataSet :=
  if zd.signedZone && !zd.nsec3Signed && options.dnssec then
    findRdata node.data rrNSEC
  else
    Option.none

/-- Result codes of the finder (`ZoneFinder::Result`). -/
inductive ZResult where
  | success
  | delegation
  | nxdomain
  | nxrrset
  | cname
  | dname
deriving DecidableEq

/-- Embedding of `FindNodeResult`: the hand-off from `findNode` to
`find_internal`.  The two bit flags are split into booleans. -/
structure FindNodeResult where
  code : ZResult
  node : Option ZoneNode
  rrset : Option RdataSet
  wildFlag : Bool
  zonecutFlag : Bool
deriving DecidableEq

/-- Failure modes of the finder: `OutOfZone` is thrown for names outside the
zone; `internalError` stands for the source's assertion failures. -/
inductive FindErr where
  | outOfZone
  | internalError
deriving DecidableEq

/-- Embedding of `findNode` (zone_finder.cc lines 395-495).  The function
also returns the final search path, which the caller (`find_internal`) reads
for its own NSEC lookup; in the source this is the in-out `node_path`
argument. -/
def findNode (tm : TreeModel) (zd : ZoneDataM) (nameLabels : DName)
    (options : FindOptions) : Except FindErr (FindNodeResult × NodePath) :=
  let state0 : FindState := ⟨Option.none, Option.none, Option.none, options.glueOk⟩
  let out := tm.find nameLabels state0
  let zonecutFlag := out.state.zonecutNode.isSome
  match out.result with
  | .exactmatch =>
      .ok (⟨.success, out.node, out.state.rrset, false, zonecutFlag⟩, out.path)
  | .partialmatch =>
      match out.node with
      | Option.none => .error .internalError
      | some n =>
        match out.state.dnameNode with
        | some dn => .ok (⟨.dname, some dn, out.state.rrset, false, false⟩, out.path)
        | Option.none =>
          match out.state.zonecutNode with
          | some zn => .ok (⟨.delegation, some zn, out.state.rrset, false, false⟩, out.path)
          | Option.none =>
            if out.path.lastRelation = .superdomain then
              match getClosestNSEC zd out.path options with
              | some (nn, nr) => .ok (⟨.nxrrset, some nn, some nr, false, false⟩, out.path)
              | Option.none => .ok (⟨.nxrrset, Option.none, Option.none, false, false⟩, out.path)
            else if n.wildcardNode && !options.noWildcard then
              if out.path.lastRelation = .commonancestor then
                match getClosestNSEC zd out.path options with
                | some (nn, nr) => .ok (⟨.nxdomain, some nn, some nr, false, false⟩, out.path)
                | Option.none => .ok (⟨.nxdomain, Option.none, Option.none, false, false⟩, out.path)
              else
                let wildcardName : DName := "*" :: n.name
                let out2 := tm.find wildcardName out.state
                if out2.result = .exactmatch then
                  .ok (⟨.success, out2.node, out2.state.rrset, true, zonecutFlag⟩, out2.path)
                else
                  .error .internalError
            else
              match getClosestNSEC zd out.path options with
              | some (nn, nr) => .ok (⟨.nxdomain, some nn, some nr, false, false⟩, out.path)
              | Option.none => .ok (⟨.nxdomain, Option.none, Option.none, false, false⟩, out.path)
  | .notfound => .error .outOfZone

/-- Embedding of a `TreeNodeRRset`: the materialized answer record set.  It
keeps the name it was built with (the node's own name, or the real query name
for wildcard substitution), the node and rdata set it references, and whether
RRSIGs were requested (`FIND_DNSSEC`). -/
structure TreeRRset where
  rname : DName
  node : ZoneNode
  rdset : RdataSet
  dnssec : Bool
deriving DecidableEq

/-- Embedding of `createTreeNodeRRset` (zone_finder.cc lines 94-114). -/
def createTreeNodeRRset (node : Option ZoneNode) (rdataset : Option RdataSet)
    (options : FindOptions) (realname : Option DName) : Option TreeRRset :=
  match node, rdataset with
  | some n, some r => some ⟨realname.getD n.name, n, r, options.dnssec⟩
  | _, _ => Option.none

/-- The `ZoneFinder::FindResultFlags` bits. -/
structure FindResultFlags where
  wildcard : Bool
  nsecSigned : Bool
  nsec3Signed : Bool
deriving DecidableEq

/-- Embedding of `ZoneFinderResultContext`. -/
structure ResultContext where
  code : ZResult
  rrset : Option TreeRRset
  flags : FindResultFlags
  foundNode : Option ZoneNode
  foundRdset : Option RdataSet
deriving DecidableEq

/-- Embedding of `createFindResult` (zone_finder.cc lines 208-238): attach
`RESULT_WILDCARD` for wildcard answers, and the NSEC3- or NSEC-signed flag for
`NXRRSET`, `NXDOMAIN` or wildcard results, regardless of the find options;
rename the rrset to the query name only on wildcard substitution. -/
def createFindResult (zd : ZoneDataM) (code : ZResult) (rdset : Option RdataSet)
    (node : Option ZoneNode) (options : FindOptions) (wild : Bool)
    (qname : Option DName) : ResultContext :=
  let rename : Option DName := if wild then qname else Option.none
  let negOrWild := code = ZResult.nxrrset || code = ZResult.nxdomain || wild
  let nsec3Flag := negOrWild && zd.nsec3Signed
  let nsecFlag := negOrWild && !zd.nsec3Signed && zd.signedZone
  ⟨code, createTreeNodeRRset node rdset options rename,
   ⟨wild, nsecFlag, nsec3Flag⟩, node, rdset⟩

/-- Embedding of `InMemoryZoneFinder::find_internal` (zone_finder.cc lines
746-838).  `target` is whether a findAll collection target was supplied (the
ANY-query path); the collected target record sets are returned alongside the
result context. -/
def find_internal (tm : TreeModel) (zd : ZoneDataM) (name : DName)
    (qtype : Nat) (target : Bool) (options : FindOptions) :
    Except FindErr (ResultContext × List TreeRRset) :=
  match findNode tm zd name options with
  | .error e => .error e
  | .ok (nodeResult, nodePath) =>
    if nodeResult.code ≠ ZResult.success then
      .ok (createFindResult zd nodeResult.code nodeResult.rrset nodeResult.node
             options false Option.none, [])
    else
      match nodeResult.node with
      | Option.none => .error .internalError
      | some node =>
        let wild := nodeResult.wildFlag
        if node.isEmpty then
          match getClosestNSEC zd nodePath options with
          | some (nn, nr) =>
              .ok (createFindResult zd .nxrrset (some nr) (some nn) options wild
                     Option.none, [])
          | Option.none =>
              .ok (createFindResult zd .nxrrset Option.none Option.none options wild
                     Option.none, [])
        else
          let delegNS : Option RdataSet :=
            if node.callback && !options.glueOk && node ≠ zd.origin &&
                qtype ≠ rrDS then
              findRdata node.data rrNS
            else
              Option.none
          match delegNS with
          | some found =>
              .ok (createFindResult zd .delegation (some found) (some node)
                     options wild (some name), [])
          | Option.none =>
            if target && !node.data.isEmpty then
              .ok (createFindResult zd .success Option.none (some node) options wild
                     (some name),
                   node.data.filterMap (fun rd =>
                     createTreeNodeRRset (some node) (some rd) options (some name)))
            else
              match findRdata node.data qtype with
              | some found =>
                  .ok (createFindResult zd .success (some found) (some node)
                         options wild (some name), [])
              | Option.none =>
                match findRdata node.data rrCNAME with
                | some found =>
                    .ok (createFindResult zd .cname (some found) (some node)
                           options wild (some name), [])
                | Option.none =>
                    .ok (createFindResult zd .nxrrset
                           (getNSECForNXRRSET zd options node) (some node)
                           options wild (some name), [])

/-- Outcome of one hash lookup in the NSEC3 subtree.  `exact` is
`EXACTMATCH` at a node; `stop` is a non-exact search with the last compared
node of the chain and whether the last comparison order was negative (the
order is nonzero on a non-exact search, cf. the source's
`assert(last_cmp.getOrder() != 0)`). -/
inductive N3Find where
  | exact (node : ZoneNode)
  | stop (lastNode : ZoneNode) (orderNeg : Bool)
deriving DecidableEq

/-- Modelled from the spec: the NSEC3 subtree of the zone, absent from the
excerpted sources, abstracted by the operations `findNSEC3` uses.  `lookup l`
is the outcome of finding the hash of the query name stripped to `l` labels
(hash computation and tree search combined, both deterministic); `pred`,
`succ` and `largest` are the in-order predecessor, in-order successor and
`getLargestInSubTree` navigation of the totally ordered subtree. -/
structure NSEC3TreeModel where
  lookup : Nat → N3Find
  pred : ZoneNode → Option ZoneNode
  succ : ZoneNode → Option ZoneNode
  largest : ZoneNode → ZoneNode

/-- Embedding of `ZoneFinder::FindNSEC3Result`. -/
structure FindNSEC3Result where
  matched : Bool
  closestLabels : Nat
  closestProof : Option TreeRRset
  nextProof : Option TreeRRset
deriving DecidableEq

/-- The two error kinds `findNSEC3` can surface to its caller. -/
inductive DsrcErr where
  | dataSourceError
  | outOfZone
deriving DecidableEq

/-- The options fixed inside `findNSEC3`: NSEC3 implies DNSSEC. -/
def nsec3Options : FindOptions := ⟨false, true, false⟩

/-- Helper of the `findNSEC3` embedding: build the record set for a possibly
absent covering node, as the source does with `createTreeNodeRRset` on
`covering_node` and its data head. -/
def nsec3NodeRRset (node : Option ZoneNode) : Option TreeRRset :=
  match node with
  | some n => createTreeNodeRRset (some n) n.data.head? nsec3Options Option.none
  | Option.none => Option.none

/-- Embedding of the loop of `InMemoryZoneFinder::findNSEC3` (zone_finder.cc
lines 866-950): examine label counts from the query name down to the origin,
looking each hash up in the NSEC3 subtree; keep the covering (next closer)
candidate across iterations.  The loop is written with explicit fuel; the
guard `labels < olabels` is the loop condition `labels >= olabels`, and
running out of fuel coincides with falling out of the loop (the "broken NSEC3
zone" error) whenever `olabels ≥ 1`. -/
def findNSEC3Go (tm : NSEC3TreeModel) (recursive : Bool)
    (coveringNode : Option ZoneNode) (olabels : Nat) :
    Nat → Nat → Except DsrcErr FindNSEC3Result
  | _, 0 => .error .dataSourceError
  | labels, fuel + 1 =>
    if labels < olabels then
      .error .dataSourceError
    else
      match tm.lookup labels with
      | .exact node =>
          .ok ⟨true, labels, nsec3NodeRRset (some node), nsec3NodeRRset coveringNode⟩
      | .stop lastNode orderNeg =>
          let previousNode := tm.pred lastNode
          let nextNode := tm.succ lastNode
          let covering :=
            if (orderNeg && previousNode.isNone) ||
                (!orderNeg && nextNode.isNone) then
              some (tm.largest lastNode)
            else
              previousNode
          if !recursive then
            .ok ⟨false, labels, nsec3NodeRRset covering, Option.none⟩
          else
            findNSEC3Go tm recursive covering olabels (labels - 1) fuel

/-- Embedding of `InMemoryZoneFinder::findNSEC3` (zone_finder.cc lines
840-951).  `rel` is the relation of the query name to the origin, and
`qlabels`/`olabels` are their label counts. -/
def findNSEC3 (tm : NSEC3TreeModel) (zd : ZoneDataM) (rel : Relation)
    (qlabels olabels : Nat) (recursive : Bool) :
    Except DsrcErr FindNSEC3Result :=
  if !zd.nsec3Signed then
    .error .dataSourceError
  else if rel ≠ Relation.equal ∧ rel ≠ Relation.subdomain then
    .error .outOfZone
  else
    findNSEC3Go tm recursive Option.none olabels qlabels (qlabels + 1 - olabels)

/-- Embedding of `iterateSHA1` (zone_finder.cc lines 499-508): one SHA-1
round over the input followed by the salt.  The SHA-1 primitive itself lives
outside the excerpted sources and is abstracted as `sha1`. -/
def iterateSHA1 (sha1 : List Nat → List Nat) (input salt : List Nat) : List Nat :=
  sha1 (input ++ salt)

/-- The `for (n = 0; n < iterations; ++n)` loop of
`InMemoryZoneFinderNSEC3Calculate`, folding `iterateSHA1` over the digest. -/
def sha1Rounds (sha1 : List Nat → List Nat) (salt : List Nat) :
    Nat → List Nat → List Nat
  | 0, digest => digest
  | n + 1, digest => sha1Rounds sha1 salt n (iterateSHA1 sha1 digest salt)

/-- Embedding of `InMemoryZoneFinderNSEC3Calculate` (zone_finder.cc lines
510-536), parametric over the external dependencies: `downcase` and `toWire`
for the name algebra, `sha1` for the digest, `b32` for the base32hex encoder.
The source's `salt_buf = (salt_len > 0) ? salt : NULL` with length 0 is the
same as appending the empty list. -/
def InMemoryZoneFinderNSEC3Calculate {α β : Type}
    (downcase : α → α) (toWire : α → List Nat)
    (sha1 : List Nat → List Nat) (b32 : List Nat → β)
    (name : α) (iterations : Nat) (salt : List Nat) : β :=
  b32 (sha1Rounds sha1 salt iterations
        (iterateSHA1 sha1 (toWire (downcase name)) salt))

/-- The specification's reference NSEC3 hash: downcase every label, serialize
to wire format, apply SHA-1 over the wire form with the salt appended, repeat
`iterations` further rounds each over the previous digest with the salt
appended, and encode the final digest with base32hex.  Written from the
spec's words, to be compared with the source embedding above. -/
def specNSEC3Hash {α β : Type}
    (downcase : α → α) (toWire : α → List Nat)
    (sha1 : List Nat → List Nat) (b32 : List Nat → β)
    (name : α) (iterations : Nat) (salt : List Nat) : β :=
  b32 ((fun digest => sha1 (digest ++ salt))^[iterations]
        (sha1 (toWire (downcase name) ++ salt)))

/-! Concrete sample zone used to evaluate the theorems on explicit inputs:
origin `example.` with an NSEC at the apex, an empty non-terminal
`c.example.` below `b.c.example.`, a wildcard `*.wild.example.`, and a
delegation at `sub.example.`. -/

/-- The `example.` apex node, carrying an NSEC record. -/
def nodeOriginEx : ZoneNode := ⟨["example"], false, false, [⟨rrNSEC, 9⟩]⟩

/-- The empty non-terminal `c.example.`. -/
def nodeC : ZoneNode := ⟨["c", "example"], false, false, []⟩

/-- The node `b.c.example.` with A and NSEC records. -/
def nodeBC : ZoneNode := ⟨["b", "c", "example"], false, false, [⟨rrA, 1⟩, ⟨rrNSEC, 2⟩]⟩

/-- The wildcard parent `wild.example.` (flagged `WILDCARD_NODE`, empty). -/
def nodeWildParent : ZoneNode := ⟨["wild", "example"], false, true, []⟩

/-- The wildcard node `*.wild.example.` with a TXT record. -/
def nodeStar : ZoneNode := ⟨["*", "wild", "example"], false, false, [⟨rrTXT, 5⟩]⟩

/-- The zone cut `sub.example.` (flagged `CALLBACK`, carrying NS). -/
def nodeSub : ZoneNode := ⟨["sub", "example"], true, false, [⟨rrNS, 7⟩]⟩

/-- A callback node carrying both DNAME and NS, for the DNAME-beats-NS case. -/
def nodeBoth : ZoneNode := ⟨["apex2"], true, false, [⟨rrDNAME, 11⟩, ⟨rrNS, 12⟩]⟩

/-- The sample zone metadata: NSEC-signed, not NSEC3-signed. -/
def zdEx : ZoneDataM := ⟨nodeOriginEx, true, false⟩

/-- A concrete tree model for the sample zone, with explicit search outcomes
per query name (the keys `k2.example.` and `k3.example.` stop in
`PARTIALMATCH` at the wildcard parent with `SUPERDOMAIN` and
`COMMONANCESTOR` last relations respectively). -/
def tmEx : TreeModel := ⟨fun labels st =>
  if labels = ["sub", "example"] then
    ⟨.exactmatch, some nodeSub, ⟨.equal, [nodeOriginEx]⟩, st⟩
  else if labels = ["c", "example"] then
    ⟨.exactmatch, some nodeC, ⟨.equal, [nodeOriginEx]⟩, st⟩
  else if labels = ["k2", "example"] then
    ⟨.partialmatch, some nodeWildParent, ⟨.superdomain, [nodeBC, nodeOriginEx]⟩, st⟩
  else if labels = ["k3", "example"] then
    ⟨.partialmatch, some nodeWildParent, ⟨.commonancestor, [nodeOriginEx]⟩, st⟩
  else if labels = ["foo", "wild", "example"] then
    ⟨.partialmatch, some nodeWildParent, ⟨.none, [nodeOriginEx]⟩, st⟩
  else if labels = ["*", "wild", "example"] then
    ⟨.exactmatch, some nodeStar, ⟨.equal, [nodeOriginEx]⟩, st⟩
  else
    ⟨.notfound, Option.none, ⟨.none, []⟩, st⟩⟩

/-- An NSEC3 node with hash label `h1`. -/
def n3NodeA : ZoneNode := ⟨["h1", "example"], false, false, [⟨rrNSEC3, 21⟩]⟩

/-- An NSEC3 node with hash label `h2`. -/
def n3NodeB : ZoneNode := ⟨["h2", "example"], false, false, [⟨rrNSEC3, 22⟩]⟩

/-- A concrete NSEC3 tree model: the hash at one label matches `n3NodeB`
exactly; other hashes stop at `n3NodeA` with a negative order and no
predecessor (the wrap-around case). -/
def tmN3 : NSEC3TreeModel :=
  ⟨fun labels => if labels = 1 then .exact n3NodeB else .stop n3NodeA true,
   fun _ => Option.none, fun _ => some n3NodeB, fun _ => n3NodeB⟩

/-- An NSEC3 tree model in which no hash ever matches (a broken NSEC3 zone,
for the recursive-exhaustion failure case). -/
def tmN3bad : NSEC3TreeModel :=
  ⟨fun _ => .stop n3NodeA true,
   fun _ => Option.none, fun _ => some n3NodeB, fun _ => n3NodeB⟩

/-- NSEC3-signed variant of the sample zone metadata. -/
def zdN3 : ZoneDataM := ⟨nodeOriginEx, true, true⟩

/-- Whether an NSEC3 lookup outcome is an exact match. -/
def N3Find.isExact : N3Find → Bool
  | .exact _ => true
  | .stop _ _ => false

/-- C5 — cut callback: a DNAME rdata set is recorded and stops the descent
even when NS coexists; otherwise an NS rdata set is recorded only when no
zone cut was recorded earlier, returning the negation of glue-OK, and a node
with an earlier cut recorded is left unrecorded. -/
theorem claim5_cut_callback (node : ZoneNode) (state : FindState) :
    (∀ d, findRdata node.data rrDNAME = some d →
      cutCallback node state =
        some (true, { state with dnameNode := some node, rrset := some d })) ∧
    (findRdata node.data rrDNAME = Option.none →
      ∀ ns, findRdata node.data rrNS = some ns →
        (state.zonecutNode = Option.none →
          cutCallback node state =
            some (!state.glueOk,
                  { state with zonecutNode := some node, rrset := some ns })) ∧
        (∀ zc, state.zonecutNode = some zc →
          cutCallback node state = some (false, state))) := by
  refine ⟨fun d hd => ?_, fun hnod ns hns => ⟨fun hzc => ?_, fun zc hzc => ?_⟩⟩
  · simp [cutCallback, hd]
  · simp [cutCallback, hnod, hns, hzc]
  · simp [cutCallback, hnod, hns, hzc]

/-- Witness for C5 at concrete inputs: a node with both DNAME and NS records
the DNAME and stops; a pure NS cut node records the cut and returns the
negation of glue-OK. -/
theorem claim5_witness :
    cutCallback nodeBoth ⟨Option.none, Option.none, Option.none, false⟩ =
      some (true, ⟨Option.none, some nodeBoth, some ⟨rrDNAME, 11⟩, false⟩) ∧
    cutCallback nodeSub ⟨Option.none, Option.none, Option.none, false⟩ =
      some (true, ⟨some nodeSub, Option.none, some ⟨rrNS, 7⟩, false⟩) := by
  constructor
  · exact (claim5_cut_callback nodeBoth ⟨Option.none, Option.none, Option.none, false⟩).1
      ⟨rrDNAME, 11⟩ (by decide)
  · exact ((claim5_cut_callback nodeSub ⟨Option.none, Option.none, Option.none, false⟩).2
      (by decide) ⟨rrNS, 7⟩ (by decide)).1 (by decide)

/-- C6 — the NSEC3 hash computation of the source (first SHA-1 round over
the downcased wire-format name with the salt appended, then `iterations`
further rounds over the previous digest with the salt appended, base32hex
encoded) is a pure function of its inputs and equals the specification's
reference definition. -/
theorem claim6_nsec3_hash {α β : Type}
    (downcase : α → α) (toWire : α → List Nat)
    (sha1 : List Nat → List Nat) (b32 : List Nat → β)
    (name : α) (iterations : Nat) (salt : List Nat) :
    InMemoryZoneFinderNSEC3Calculate downcase toWire sha1 b32 name iterations salt =
      specNSEC3Hash downcase toWire sha1 b32 name iterations salt := by
  have key : ∀ (n : Nat) (d : List Nat),
      sha1Rounds sha1 salt n d = (fun digest => sha1 (digest ++ salt))^[n] d := by
    intro n
    induction n with
    | zero => intro d; rfl
    | succ m ih =>
        intro d
        rw [sha1Rounds, ih, iterateSHA1, ← Function.iterate_succ_apply,
          Function.iterate_succ_apply]
  simp only [InMemoryZoneFinderNSEC3Calculate, specNSEC3Hash, key, iterateSHA1]

/-- C2 — when the tree search ends in `PARTIALMATCH` with no DNAME and no
zone cut recorded and the last comparison relation is `SUPERDOMAIN`, the
query name exists as an empty non-terminal, so `findNode` and `find` return
`NXRRSET` with the closest-NSEC witness; nothing constrains the stop node's
`WILDCARD_NODE` flag, so this takes priority over wildcard synthesis. -/
theorem claim2_ent_nxrrset (tm : TreeModel) (zd : ZoneDataM) (labels : DName)
    (qtype : Nat) (target : Bool) (options : FindOptions)
    (n : ZoneNode) (path : NodePath) (st : FindState)
    (hout : tm.find labels ⟨Option.none, Option.none, Option.none, options.glueOk⟩ =
      ⟨.partialmatch, some n, path, st⟩)
    (hdname : st.dnameNode = Option.none)
    (hzc : st.zonecutNode = Option.none)
    (hrel : path.lastRelation = .superdomain) :
    findNode tm zd labels options =
      .ok (⟨.nxrrset, (getClosestNSEC zd path options).map Prod.fst,
            (getClosestNSEC zd path options).map Prod.snd, false, false⟩, path) ∧
    find_internal tm zd labels qtype target options =
      .ok (createFindResult zd .nxrrset ((getClosestNSEC zd path options).map Prod.snd)
             ((getClosestNSEC zd path options).map Prod.fst) options false
             Option.none, []) := by
  have hfn : findNode tm zd labels options =
      .ok (⟨.nxrrset, (getClosestNSEC zd path options).map Prod.fst,
            (getClosestNSEC zd path options).map Prod.snd, false, false⟩, path) := by
    simp only [findNode, hout, hdname, hzc, hrel]
    cases hC : getClosestNSEC zd path options with
    | none => simp
    | some p => cases p; simp
  refine ⟨hfn, ?_⟩
  simp only [find_internal, hfn]
  simp

/-- Witness for C2: the query `k2.example.` in the sample zone stops with a
`SUPERDOMAIN` relation at the wildcard parent (whose `WILDCARD_NODE` flag is
set) and yields `NXRRSET` with the NSEC of `b.c.example.` as witness. -/
theorem claim2_witness :
    nodeWildParent.wildcardNode = true ∧
    findNode tmEx zdEx ["k2", "example"] ⟨false, true, false⟩ =
      .ok (⟨.nxrrset, some nodeBC, some ⟨rrNSEC, 2⟩, false, false⟩,
           ⟨.superdomain, [nodeBC, nodeOriginEx]⟩) := by
  refine ⟨by decide, ?_⟩
  have h := (claim2_ent_nxrrset tmEx zdEx ["k2", "example"] rrA false
    ⟨false, true, false⟩ nodeWildParent ⟨.superdomain, [nodeBC, nodeOriginEx]⟩
    ⟨Option.none, Option.none, Option.none, false⟩
    (by decide) (by decide) (by decide) (by decide)).1
  rw [h]
  rfl

/-- C3 — when the tree search ends in `PARTIALMATCH` at a `WILDCARD_NODE`
flagged node with `NO_WILDCARD` unset and the last comparison relation is
`COMMONANCESTOR`, the wildcard match is cancelled: `findNode` and `find`
return `NXDOMAIN` with the closest-NSEC witness, not a wildcard answer. -/
theorem claim3_wildcard_cancel (tm : TreeModel) (zd : ZoneDataM) (labels : DName)
    (qtype : Nat) (target : Bool) (options : FindOptions)
    (n : ZoneNode) (path : NodePath) (st : FindState)
    (hout : tm.find labels ⟨Option.none, Option.none, Option.none, options.glueOk⟩ =
      ⟨.partialmatch, some n, path, st⟩)
    (hdname : st.dnameNode = Option.none)
    (hzc : st.zonecutNode = Option.none)
    (hwild : n.wildcardNode = true)
    (hnw : options.noWildcard = false)
    (hrel : path.lastRelation = .commonancestor) :
    findNode tm zd labels options =
      .ok (⟨.nxdomain, (getClosestNSEC zd path options).map Prod.fst,
            (getClosestNSEC zd path options).map Prod.snd, false, false⟩, path) ∧
    find_internal tm zd labels qtype target options =
      .ok (createFindResult zd .nxdomain ((getClosestNSEC zd path options).map Prod.snd)
             ((getClosestNSEC zd path options).map Prod.fst) options false
             Option.none, []) := by
  have hfn : findNode tm zd labels options =
      .ok (⟨.nxdomain, (getClosestNSEC zd path options).map Prod.fst,
            (getClosestNSEC zd path options).map Prod.snd, false, false⟩, path) := by
    simp only [findNode, hout, hdname, hzc, hrel, hwild, hnw]
    cases hC : getClosestNSEC zd path options with
    | none => simp
    | some p => cases p; simp
  refine ⟨hfn, ?_⟩
  simp only [find_internal, hfn]
  simp

/-- Witness for C3: the query `k3.example.` in the sample zone stops at the
wildcard parent with a `COMMONANCESTOR` relation, so the wildcard is
cancelled and the result is `NXDOMAIN` with the apex NSEC as witness. -/
theorem claim3_witness :
    nodeWildParent.wildcardNode = true ∧
    findNode tmEx zdEx ["k3", "example"] ⟨false, true, false⟩ =
      .ok (⟨.nxdomain, some nodeOriginEx, some ⟨rrNSEC, 9⟩, false, false⟩,
           ⟨.commonancestor, [nodeOriginEx]⟩) := by
  refine ⟨by decide, ?_⟩
  have h := (claim3_wildcard_cancel tmEx zdEx ["k3", "example"] rrA false
    ⟨false, true, false⟩ nodeWildParent ⟨.commonancestor, [nodeOriginEx]⟩
    ⟨Option.none, Option.none, Option.none, false⟩
    (by decide) (by decide) (by decide) (by decide) (by decide) (by decide)).1
  rw [h]
  rfl

/-- C1 — for a find call whose node search yields an exact, non-empty match,
the result is `DELEGATION` exactly when the node has the callback flag, is
not the origin, the type is not DS, glue-OK is unset and the node carries an
NS rdata set; in that case the answer is that NS rdata set, and in
particular a DS query at a zone cut never returns `DELEGATION`. -/
theorem claim1_exact_delegation_iff (tm : TreeModel) (zd : ZoneDataM)
    (name : DName) (qtype : Nat) (target : Bool) (options : FindOptions)
    (nr : FindNodeResult) (path : NodePath) (n : ZoneNode)
    (hfn : findNode tm zd name options = .ok (nr, path))
    (hcode : nr.code = .success)
    (hn : nr.node = some n)
    (hne : n.isEmpty = false) :
    ∃ ctx tgt, find_internal tm zd name qtype target options = .ok (ctx, tgt) ∧
      (ctx.code = .delegation ↔
        (n.callback = true ∧ options.glueOk = false ∧ n ≠ zd.origin ∧
         qtype ≠ rrDS ∧ (findRdata n.data rrNS).isSome = true)) ∧
      (ctx.code = .delegation →
        ctx.foundRdset = findRdata n.data rrNS ∧
        ∀ rs, ctx.rrset = some rs → some rs.rdset = findRdata n.data rrNS) ∧
      (qtype = rrDS → ctx.code ≠ .delegation) := by
  unfold find_internal
  rw [hfn]
  dsimp only
  rw [if_neg (by simp [hcode])]
  rw [hn]
  dsimp only
  rw [if_neg (by simp [hne])]
  by_cases hcond : (n.callback && !options.glueOk && n ≠ zd.origin && qtype ≠ rrDS) = true
  · rw [if_pos hcond]
    simp only [Bool.and_eq_true, decide_eq_true_eq, Bool.not_eq_true'] at hcond
    obtain ⟨⟨⟨h1, h2⟩, h3⟩, h4⟩ := hcond
    cases hNS : findRdata n.data rrNS with
    | some found =>
        refine ⟨_, _, rfl, ?_, ?_, fun hds => absurd hds h4⟩
        · simp [createFindResult, h1, h2, h3, h4, hNS]
        · intro _
          refine ⟨by simp [createFindResult], fun rs hrs => ?_⟩
          simp only [createFindResult, createTreeNodeRRset, Option.some.injEq] at hrs
          rw [← hrs]
    | none =>
        have hR : ¬(n.callback = true ∧ options.glueOk = false ∧ n ≠ zd.origin ∧
            qtype ≠ rrDS ∧ (Option.none : Option RdataSet).isSome = true) := by
          rintro ⟨-, -, -, -, h5⟩
          simp at h5
        by_cases htgt : (target && !n.data.isEmpty) = true
        · rw [if_pos htgt]
          refine ⟨_, _, rfl, ⟨fun h => ?_, fun h => absurd h hR⟩, fun h => ?_,
            fun _ h => ?_⟩ <;> simp [createFindResult] at h
        · rw [if_neg htgt]
          cases hq : findRdata n.data qtype with
          | some found =>
              refine ⟨_, _, rfl, ⟨fun h => ?_, fun h => absurd h hR⟩, fun h => ?_,
                fun _ h => ?_⟩ <;> simp [createFindResult] at h
          | none =>
              cases hc : findRdata n.data rrCNAME with
              | some found =>
                  refine ⟨_, _, rfl, ⟨fun h => ?_, fun h => absurd h hR⟩, fun h => ?_,
                    fun _ h => ?_⟩ <;> simp [createFindResult] at h
              | none =>
                  refine ⟨_, _, rfl, ⟨fun h => ?_, fun h => absurd h hR⟩, fun h => ?_,
                    fun _ h => ?_⟩ <;> simp [createFindResult] at h
  · rw [if_neg hcond]
    have hR : ¬(n.callback = true ∧ options.glueOk = false ∧ n ≠ zd.origin ∧
        qtype ≠ rrDS ∧ (findRdata n.data rrNS).isSome = true) :=
      fun ⟨h1, h2, h3, h4, _⟩ =>
        hcond (by simp [Bool.and_eq_true, decide_eq_true_eq, h1, h2, h3, h4])
    by_cases htgt : (target && !n.data.isEmpty) = true
    · rw [if_pos htgt]
      refine ⟨_, _, rfl, ⟨fun h => ?_, fun h => absurd h hR⟩, fun h => ?_,
        fun _ h => ?_⟩ <;> simp [createFindResult] at h
    · rw [if_neg htgt]
      cases hq : findRdata n.data qtype with
      | some found =>
          refine ⟨_, _, rfl, ⟨fun h => ?_, fun h => absurd h hR⟩, fun h => ?_,
            fun _ h => ?_⟩ <;> simp [createFindResult] at h
      | none =>
          cases hc : findRdata n.data rrCNAME with
          | some found =>
              refine ⟨_, _, rfl, ⟨fun h => ?_, fun h => absurd h hR⟩, fun h => ?_,
                fun _ h => ?_⟩ <;> simp [createFindResult] at h
          | none =>
              refine ⟨_, _, rfl, ⟨fun h => ?_, fun h => absurd h hR⟩, fun h => ?_,
                fun _ h => ?_⟩ <;> simp [createFindResult] at h

/-- Witness for C1: the query `(sub.example., A)` with default options hits
the cut node exactly and is classified `DELEGATION`. -/
theorem claim1_witness :
    ∃ ctx tgt,
      find_internal tmEx zdEx ["sub", "example"] rrA false ⟨false, false, false⟩ =
        .ok (ctx, tgt) ∧ ctx.code = .delegation := by
  have hfne : findNode tmEx zdEx ["sub", "example"] ⟨false, false, false⟩ =
      .ok (⟨.success, some nodeSub, Option.none, false, false⟩,
           ⟨.equal, [nodeOriginEx]⟩) := rfl
  obtain ⟨ctx, tgt, hres, hiff, -, -⟩ :=
    claim1_exact_delegation_iff tmEx zdEx ["sub", "example"] rrA false
      ⟨false, false, false⟩ _ _ nodeSub hfne rfl rfl rfl
  exact ⟨ctx, tgt, hres, hiff.mpr ⟨rfl, rfl, by decide, by decide, by decide⟩⟩

/-- C4 — wildcard synthesis: when the search stops in `PARTIALMATCH` at a
`WILDCARD_NODE` flagged node with `NO_WILDCARD` unset and neither the
empty-non-terminal nor the cancellation case applies, `findNode` looks up
the synthesized name `*.<stop-node>` with a fresh search path, an exact
match there yields `SUCCESS` with the wildcard flag, and every record set
materialized for a `SUCCESS`/`CNAME`/`DELEGATION` outcome (and every ANY
target record set) carries the original query name, with `RESULT_WILDCARD`
set. -/
theorem claim4_wildcard_synthesis (tm : TreeModel) (zd : ZoneDataM)
    (labels : DName) (qtype : Nat) (target : Bool) (options : FindOptions)
    (n w : ZoneNode) (path path2 : NodePath) (st st2 : FindState)
    (hout : tm.find labels ⟨Option.none, Option.none, Option.none, options.glueOk⟩ =
      ⟨.partialmatch, some n, path, st⟩)
    (hdname : st.dnameNode = Option.none)
    (hzc : st.zonecutNode = Option.none)
    (hrel1 : path.lastRelation ≠ .superdomain)
    (hrel2 : path.lastRelation ≠ .commonancestor)
    (hwild : n.wildcardNode = true)
    (hnw : options.noWildcard = false)
    (hout2 : tm.find ("*" :: n.name) st = ⟨.exactmatch, some w, path2, st2⟩) :
    findNode tm zd labels options =
      .ok (⟨.success, some w, st2.rrset, true, false⟩, path2) ∧
    ∀ ctx tgt, find_internal tm zd labels qtype target options = .ok (ctx, tgt) →
      ctx.flags.wildcard = true ∧
      (∀ rs, ctx.rrset = some rs →
        (ctx.code = .success ∨ ctx.code = .cname ∨ ctx.code = .delegation) →
        rs.rname = labels) ∧
      (∀ rs, rs ∈ tgt → rs.rname = labels) := by
  have hfn : findNode tm zd labels options =
      .ok (⟨.success, some w, st2.rrset, true, false⟩, path2) := by
    simp only [findNode, hout, hdname, hzc, hwild, hnw]
    rw [if_neg hrel1]
    simp only [Bool.not_false, Bool.and_self, if_true]
    rw [if_neg hrel2, hout2]
    simp
  refine ⟨hfn, ?_⟩
  intro ctx tgt h
  rw [find_internal] at h
  rw [hfn] at h
  dsimp only at h
  rw [if_neg (by simp)] at h
  by_cases hemp : w.isEmpty = true
  · rw [if_pos hemp] at h
    cases hcl : getClosestNSEC zd path2 options with
    | some p =>
        obtain ⟨nn, nrd⟩ := p
        rw [hcl] at h
        simp only [Except.ok.injEq, Prod.mk.injEq] at h
        obtain ⟨h1, h2⟩ := h
        subst h1
        subst h2
        refine ⟨by simp [createFindResult], fun rs hrs hcode => ?_, fun rs hrs => ?_⟩
        · simp [createFindResult] at hcode
        · simp at hrs
    | none =>
        rw [hcl] at h
        simp only [Except.ok.injEq, Prod.mk.injEq] at h
        obtain ⟨h1, h2⟩ := h
        subst h1
        subst h2
        refine ⟨by simp [createFindResult], fun rs hrs hcode => ?_, fun rs hrs => ?_⟩
        · simp [createFindResult] at hcode
        · simp at hrs
  · rw [if_neg hemp] at h
    by_cases hcond : (w.callback && !options.glueOk && w ≠ zd.origin && qtype ≠ rrDS) = true
    · rw [if_pos hcond] at h
      cases hNS : findRdata w.data rrNS with
      | some found =>
          rw [hNS] at h
          simp only [Except.ok.injEq, Prod.mk.injEq] at h
          obtain ⟨h1, h2⟩ := h
          subst h1
          subst h2
          refine ⟨by simp [createFindResult], fun rs hrs hcode => ?_, fun rs hrs => ?_⟩
          · simp only [createFindResult, createTreeNodeRRset, Option.some.injEq] at hrs
            rw [← hrs]
            simp
          · simp at hrs
      | none =>
          rw [hNS] at h
          by_cases htgt : (target && !w.data.isEmpty) = true
          · rw [if_pos htgt] at h
            simp only [Except.ok.injEq, Prod.mk.injEq] at h
            obtain ⟨h1, h2⟩ := h
            subst h1
            subst h2
            refine ⟨by simp [createFindResult], fun rs hrs hcode => ?_, fun rs hrs => ?_⟩
            · simp [createFindResult, createTreeNodeRRset] at hrs
            · simp only [List.mem_filterMap, createTreeNodeRRset,
                Option.some.injEq] at hrs
              obtain ⟨rd, -, hrd⟩ := hrs
              rw [← hrd]
              simp
          · rw [if_neg htgt] at h
            cases hq : findRdata w.data qtype with
            | some found =>
                rw [hq] at h
                simp only [Except.ok.injEq, Prod.mk.injEq] at h
                obtain ⟨h1, h2⟩ := h
                subst h1
                subst h2
                refine ⟨by simp [createFindResult], fun rs hrs hcode => ?_,
                  fun rs hrs => ?_⟩
                · simp only [createFindResult, createTreeNodeRRset,
                    Option.some.injEq] at hrs
                  rw [← hrs]
                  simp
                · simp at hrs
            | none =>
                rw [hq] at h
                cases hc : findRdata w.data rrCNAME with
                | some found =>
                    rw [hc] at h
                    simp only [Except.ok.injEq, Prod.mk.injEq] at h
                    obtain ⟨h1, h2⟩ := h
                    subst h1
                    subst h2
                    refine ⟨by simp [createFindResult], fun rs hrs hcode => ?_,
                      fun rs hrs => ?_⟩
                    · simp only [createFindResult, createTreeNodeRRset,
                        Option.some.injEq] at hrs
                      rw [← hrs]
                      simp
                    · simp at hrs
                | none =>
                    rw [hc] at h
                    simp only [Except.ok.injEq, Prod.mk.injEq] at h
                    obtain ⟨h1, h2⟩ := h
                    subst h1
                    subst h2
                    refine ⟨by simp [createFindResult], fun rs hrs hcode => ?_,
                      fun rs hrs => ?_⟩
                    · simp [createFindResult] at hcode
                    · simp at hrs
    · rw [if_neg hcond] at h
      by_cases htgt : (target && !w.data.isEmpty) = true
      · rw [if_pos htgt] at h
        simp only [Except.ok.injEq, Prod.mk.injEq] at h
        obtain ⟨h1, h2⟩ := h
        subst h1
        subst h2
        refine ⟨by simp [createFindResult], fun rs hrs hcode => ?_, fun rs hrs => ?_⟩
        · simp [createFindResult, createTreeNodeRRset] at hrs
        · simp only [List.mem_filterMap, createTreeNodeRRset,
            Option.some.injEq] at hrs
          obtain ⟨rd, -, hrd⟩ := hrs
          rw [← hrd]
          simp
      · rw [if_neg htgt] at h
        cases hq : findRdata w.data qtype with
        | some found =>
            rw [hq] at h
            simp only [Except.ok.injEq, Prod.mk.injEq] at h
            obtain ⟨h1, h2⟩ := h
            subst h1
            subst h2
            refine ⟨by simp [createFindResult], fun rs hrs hcode => ?_,
              fun rs hrs => ?_⟩
            · simp only [createFindResult, createTreeNodeRRset,
                Option.some.injEq] at hrs
              rw [← hrs]
              simp
            · simp at hrs
        | none =>
            rw [hq] at h
            cases hc : findRdata w.data rrCNAME with
            | some found =>
                rw [hc] at h
                simp only [Except.ok.injEq, Prod.mk.injEq] at h
                obtain ⟨h1, h2⟩ := h
                subst h1
                subst h2
                refine ⟨by simp [createFindResult], fun rs hrs hcode => ?_,
                  fun rs hrs => ?_⟩
                · simp only [createFindResult, createTreeNodeRRset,
                    Option.some.injEq] at hrs
                  rw [← hrs]
                  simp
                · simp at hrs
            | none =>
                rw [hc] at h
                simp only [Except.ok.injEq, Prod.mk.injEq] at h
                obtain ⟨h1, h2⟩ := h
                subst h1
                subst h2
                refine ⟨by simp [createFindResult], fun rs hrs hcode => ?_,
                  fun rs hrs => ?_⟩
                · simp [createFindResult] at hcode
                · simp at hrs

/-- Witness for C4: the query `(foo.wild.example., TXT)` synthesizes
`*.wild.example.`, matches it exactly, and the answer record set carries the
query name `foo.wild.example.` with the wildcard flag set. -/
theorem claim4_witness :
    findNode tmEx zdEx ["foo", "wild", "example"] ⟨false, false, false⟩ =
      .ok (⟨.success, some nodeStar, Option.none, true, false⟩,
           ⟨.equal, [nodeOriginEx]⟩) ∧
    ∃ ctx tgt,
      find_internal tmEx zdEx ["foo", "wild", "example"] rrTXT false
          ⟨false, false, false⟩ = .ok (ctx, tgt) ∧
      ctx.flags.wildcard = true ∧
      ∀ rs, ctx.rrset = some rs →
        (ctx.code = .success ∨ ctx.code = .cname ∨ ctx.code = .delegation) →
        rs.rname = ["foo", "wild", "example"] := by
  have h := claim4_wildcard_synthesis tmEx zdEx ["foo", "wild", "example"] rrTXT
    false ⟨false, false, false⟩ nodeWildParent nodeStar
    ⟨.none, [nodeOriginEx]⟩ ⟨.equal, [nodeOriginEx]⟩
    ⟨Option.none, Option.none, Option.none, false⟩
    ⟨Option.none, Option.none, Option.none, false⟩
    rfl rfl rfl (by decide) (by decide) rfl rfl rfl
  refine ⟨h.1, ?_⟩
  have hres : find_internal tmEx zdEx ["foo", "wild", "example"] rrTXT false
      ⟨false, false, false⟩ =
      .ok (⟨.success, some ⟨["foo", "wild", "example"], nodeStar, ⟨rrTXT, 5⟩, false⟩,
            ⟨true, true, false⟩, some nodeStar, some ⟨rrTXT, 5⟩⟩, []) := rfl
  obtain ⟨hflag, hname, -⟩ := h.2 _ _ hres
  exact ⟨_, _, hres, hflag, hname⟩

/-- C9 counterexample — in the sample zone the query `(c.example., A)` with
`FIND_DNSSEC` matches the empty node `c.example.` exactly; the result is
`NXRRSET`, but the NSEC witness is the apex NSEC found by walking previous
nodes, while the matched node itself has no NSEC rdata set at all (it is
empty), refuting the claim that the witness is collected on the node
itself. -/
theorem claim9_counterexample :
    find_internal tmEx zdEx ["c", "example"] rrA false ⟨false, true, false⟩ =
      .ok (⟨.nxrrset, some ⟨["example"], nodeOriginEx, ⟨rrNSEC, 9⟩, true⟩,
            ⟨false, true, false⟩, some nodeOriginEx, some ⟨rrNSEC, 9⟩⟩, []) ∧
    findRdata nodeC.data rrNSEC = Option.none ∧
    nodeOriginEx ≠ nodeC := by
  exact ⟨rfl, rfl, by decide⟩

/-- C9 (amended) — an exact match at an empty node yields `NXRRSET`, and
when the zone is NSEC-signed and `FIND_DNSSEC` is set the NSEC witness is
the closest NSEC obtained by walking the search path's previous nodes
(`getClosestNSEC`), not the empty matched node's own rdata (it has none). -/
theorem claim9_amended (tm : TreeModel) (zd : ZoneDataM) (name : DName)
    (qtype : Nat) (target : Bool) (options : FindOptions)
    (nr : FindNodeResult) (path : NodePath) (n : ZoneNode)
    (hfn : findNode tm zd name options = .ok (nr, path))
    (hcode : nr.code = .success)
    (hn : nr.node = some n)
    (hne : n.isEmpty = true) :
    find_internal tm zd name qtype target options =
      .ok (createFindResult zd .nxrrset
             ((getClosestNSEC zd path options).map Prod.snd)
             ((getClosestNSEC zd path options).map Prod.fst)
             options nr.wildFlag Option.none, []) := by
  unfold find_internal
  rw [hfn]
  dsimp only
  rw [if_neg (by simp [hcode])]
  rw [hn]
  dsimp only
  rw [if_pos hne]
  cases hcl : getClosestNSEC zd path options with
  | some p => obtain ⟨nn, nrd⟩ := p; simp
  | none => simp

/-- Witness for the amended C9 at the concrete input of the
counterexample. -/
theorem claim9_witness :
    find_internal tmEx zdEx ["c", "example"] rrA false ⟨false, true, false⟩ =
      .ok (createFindResult zdEx .nxrrset
             ((getClosestNSEC zdEx ⟨.equal, [nodeOriginEx]⟩ ⟨false, true, false⟩).map
               Prod.snd)
             ((getClosestNSEC zdEx ⟨.equal, [nodeOriginEx]⟩ ⟨false, true, false⟩).map
               Prod.fst)
             ⟨false, true, false⟩ false Option.none, []) :=
  claim9_amended tmEx zdEx ["c", "example"] rrA false ⟨false, true, false⟩
    ⟨.success, some nodeC, Option.none, false, false⟩ ⟨.equal, [nodeOriginEx]⟩
    nodeC rfl rfl rfl rfl

/-- Helper: two `findNode` runs that differ only in the `FIND_DNSSEC` bit
either fail with the same error or succeed with the same result code, the
same wildcard flag and the same final path; on `SUCCESS` the results are
identical (only negative results carry option-dependent NSEC witnesses). -/
theorem findNode_dnssec_pair (tm : TreeModel) (zd : ZoneDataM) (labels : DName)
    (g nw d1 d2 : Bool) :
    (∃ e, findNode tm zd labels ⟨g, d1, nw⟩ = .error e ∧
          findNode tm zd labels ⟨g, d2, nw⟩ = .error e) ∨
    (∃ nr1 nr2 p, findNode tm zd labels ⟨g, d1, nw⟩ = .ok (nr1, p) ∧
          findNode tm zd labels ⟨g, d2, nw⟩ = .ok (nr2, p) ∧
          nr1.code = nr2.code ∧ nr1.wildFlag = nr2.wildFlag ∧
          (nr1.code = .success → nr1 = nr2)) := by
  unfold findNode
  dsimp only
  rcases hO : tm.find labels ⟨Option.none, Option.none, Option.none, g⟩ with
    ⟨res, nodeOpt, path, st⟩
  dsimp only
  cases res with
  | exactmatch =>
      right
      exact ⟨_, _, _, rfl, rfl, rfl, rfl, fun _ => rfl⟩
  | notfound =>
      left
      exact ⟨_, rfl, rfl⟩
  | partialmatch =>
      cases nodeOpt with
      | none => left; exact ⟨_, rfl, rfl⟩
      | some n =>
        cases hdn : st.dnameNode with
        | some dn => right; exact ⟨_, _, _, rfl, rfl, rfl, rfl, fun hs => by simp at hs⟩
        | none =>
          cases hzc : st.zonecutNode with
          | some zn => right; exact ⟨_, _, _, rfl, rfl, rfl, rfl, fun hs => by simp at hs⟩
          | none =>
            dsimp only
            by_cases hrel : path.lastRelation = .superdomain
            · rw [if_pos hrel, if_pos hrel]
              cases hc1 : getClosestNSEC zd path ⟨g, d1, nw⟩ with
              | some p1 =>
                  obtain ⟨nn1, nr1⟩ := p1
                  cases hc2 : getClosestNSEC zd path ⟨g, d2, nw⟩ with
                  | some p2 =>
                      obtain ⟨nn2, nr2⟩ := p2
                      right
                      exact ⟨_, _, _, rfl, rfl, rfl, rfl, fun hs => by simp at hs⟩
                  | none =>
                      right
                      exact ⟨_, _, _, rfl, rfl, rfl, rfl, fun hs => by simp at hs⟩
              | none =>
                  cases hc2 : getClosestNSEC zd path ⟨g, d2, nw⟩ with
                  | some p2 =>
                      obtain ⟨nn2, nr2⟩ := p2
                      right
                      exact ⟨_, _, _, rfl, rfl, rfl, rfl, fun hs => by simp at hs⟩
                  | none =>
                      right
                      exact ⟨_, _, _, rfl, rfl, rfl, rfl, fun hs => by simp at hs⟩
            · rw [if_neg hrel, if_neg hrel]
              by_cases hw : (n.wildcardNode && !nw) = true
              · rw [if_pos hw, if_pos hw]
                by_cases hca : path.lastRelation = .commonancestor
                · rw [if_pos hca, if_pos hca]
                  cases hc1 : getClosestNSEC zd path ⟨g, d1, nw⟩ with
                  | some p1 =>
                      obtain ⟨nn1, nr1⟩ := p1
                      cases hc2 : getClosestNSEC zd path ⟨g, d2, nw⟩ with
                      | some p2 =>
                          obtain ⟨nn2, nr2⟩ := p2
                          right
                          exact ⟨_, _, _, rfl, rfl, rfl, rfl, fun hs => by simp at hs⟩
                      | none =>
                          right
                          exact ⟨_, _, _, rfl, rfl, rfl, rfl, fun hs => by simp at hs⟩
                  | none =>
                      cases hc2 : getClosestNSEC zd path ⟨g, d2, nw⟩ with
                      | some p2 =>
                          obtain ⟨nn2, nr2⟩ := p2
                          right
                          exact ⟨_, _, _, rfl, rfl, rfl, rfl, fun hs => by simp at hs⟩
                      | none =>
                          right
                          exact ⟨_, _, _, rfl, rfl, rfl, rfl, fun hs => by simp at hs⟩
                · rw [if_neg hca, if_neg hca]
                  rcases hO2 : tm.find ("*" :: n.name) st with ⟨res2, nodeOpt2, path2, st2⟩
                  dsimp only
                  cases res2 with
                  | exactmatch =>
                      right
                      exact ⟨_, _, _, rfl, rfl, rfl, rfl, fun _ => rfl⟩
                  | partialmatch =>
                      left
                      exact ⟨_, rfl, rfl⟩
                  | notfound =>
                      left
                      exact ⟨_, rfl, rfl⟩
              · rw [if_neg hw, if_neg hw]
                cases hc1 : getClosestNSEC zd path ⟨g, d1, nw⟩ with
                | some p1 =>
                    obtain ⟨nn1, nr1⟩ := p1
                    cases hc2 : getClosestNSEC zd path ⟨g, d2, nw⟩ with
                    | some p2 =>
                        obtain ⟨nn2, nr2⟩ := p2
                        right
                        exact ⟨_, _, _, rfl, rfl, rfl, rfl, fun hs => by simp at hs⟩
                    | none =>
                        right
                        exact ⟨_, _, _, rfl, rfl, rfl, rfl, fun hs => by simp at hs⟩
                | none =>
                    cases hc2 : getClosestNSEC zd path ⟨g, d2, nw⟩ with
                    | some p2 =>
                        obtain ⟨nn2, nr2⟩ := p2
                        right
                        exact ⟨_, _, _, rfl, rfl, rfl, rfl, fun hs => by simp at hs⟩
                    | none =>
                        right
                        exact ⟨_, _, _, rfl, rfl, rfl, rfl, fun hs => by simp at hs⟩

/-- Helper: every successful `find_internal` context is produced by
`createFindResult` for the same zone and options. -/
theorem find_internal_ctx_shape (tm : TreeModel) (zd : ZoneDataM) (name : DName)
    (qtype : Nat) (target : Bool) (options : FindOptions)
    (ctx : ResultContext) (tgt : List TreeRRset)
    (h : find_internal tm zd name qtype target options = .ok (ctx, tgt)) :
    ∃ code rd node wild qn, ctx = createFindResult zd code rd node options wild qn := by
  unfold find_internal at h
  rcases hfn : findNode tm zd name options with e | pr
  · rw [hfn] at h
    simp at h
  · obtain ⟨nr, path⟩ := pr
    rw [hfn] at h
    dsimp only at h
    repeat' split at h
    all_goals
      first
        | (simp only [Except.ok.injEq, Prod.mk.injEq] at h
           exact ⟨_, _, _, _, _, h.1.symm⟩)
        | simp at h

/-- C10 — the `RESULT_NSEC3_SIGNED` / `RESULT_NSEC_SIGNED` flags are
attached to every `NXRRSET`, `NXDOMAIN` or wildcard result according to the
zone's signing state alone: toggling `FIND_DNSSEC` never changes the result
code or the flags of `find`/`findAll` (only the witness record sets), and
the signed flag is present exactly when the code is negative or the result
came from a wildcard. -/
theorem claim10_signed_flags (tm : TreeModel) (zd : ZoneDataM) (name : DName)
    (qtype : Nat) (target : Bool) (g d nw : Bool)
    (ctx : ResultContext) (tgt : List TreeRRset)
    (h : find_internal tm zd name qtype target ⟨g, d, nw⟩ = .ok (ctx, tgt)) :
    Except.map (fun p => (p.1.code, p.1.flags))
        (find_internal tm zd name qtype target ⟨g, true, nw⟩) =
      Except.map (fun p => (p.1.code, p.1.flags))
        (find_internal tm zd name qtype target ⟨g, false, nw⟩) ∧
    ctx.flags.nsec3Signed =
      ((ctx.code = ZResult.nxrrset || ctx.code = ZResult.nxdomain ||
        ctx.flags.wildcard) && zd.nsec3Signed) ∧
    ctx.flags.nsecSigned =
      ((ctx.code = ZResult.nxrrset || ctx.code = ZResult.nxdomain ||
        ctx.flags.wildcard) && !zd.nsec3Signed && zd.signedZone) := by
  refine ⟨?_, ?_, ?_⟩
  case refine_2 =>
    obtain ⟨code, rd, node, wild, qn, hctx⟩ :=
      find_internal_ctx_shape tm zd name qtype target ⟨g, d, nw⟩ ctx tgt h
    subst hctx
    rfl
  case refine_3 =>
    obtain ⟨code, rd, node, wild, qn, hctx⟩ :=
      find_internal_ctx_shape tm zd name qtype target ⟨g, d, nw⟩ ctx tgt h
    subst hctx
    rfl
  rcases findNode_dnssec_pair tm zd name g nw true false with
    ⟨e, h1, h2⟩ | ⟨nr1, nr2, p, h1, h2, hco, hwf, hsucc⟩
  · unfold find_internal
    rw [h1, h2]
  · unfold find_internal
    rw [h1, h2]
    dsimp only
    by_cases hc : nr1.code = ZResult.success
    · have heq : nr1 = nr2 := hsucc hc
      subst heq
      rw [if_neg (by simp [hc]), if_neg (by simp [hc])]
      cases hn : nr1.node with
      | none => rfl
      | some node =>
          dsimp only
          by_cases hemp : node.isEmpty = true
          · rw [if_pos hemp, if_pos hemp]
            cases hcl1 : getClosestNSEC zd p ⟨g, true, nw⟩ with
            | some p1 =>
                obtain ⟨nn1, nrd1⟩ := p1
                cases hcl2 : getClosestNSEC zd p ⟨g, false, nw⟩ with
                | some p2 => obtain ⟨nn2, nrd2⟩ := p2; rfl
                | none => rfl
            | none =>
                cases hcl2 : getClosestNSEC zd p ⟨g, false, nw⟩ with
                | some p2 => obtain ⟨nn2, nrd2⟩ := p2; rfl
                | none => rfl
          · rw [if_neg hemp, if_neg hemp]
            by_cases hcond :
                (node.callback && !g && node ≠ zd.origin && qtype ≠ rrDS) = true
            · rw [if_pos hcond]
              cases hNS : findRdata node.data rrNS with
              | some found => rfl
              | none =>
                  by_cases htgt : (target && !node.data.isEmpty) = true
                  · rw [if_pos htgt, if_pos htgt]
                    rfl
                  · rw [if_neg htgt, if_neg htgt]
                    cases hq : findRdata node.data qtype with
                    | some found => rfl
                    | none =>
                        cases hcn : findRdata node.data rrCNAME with
                        | some found => rfl
                        | none => rfl
            · rw [if_neg hcond]
              by_cases htgt : (target && !node.data.isEmpty) = true
              · rw [if_pos htgt, if_pos htgt]
                rfl
              · rw [if_neg htgt, if_neg htgt]
                cases hq : findRdata node.data qtype with
                | some found => rfl
                | none =>
                    cases hcn : findRdata node.data rrCNAME with
                    | some found => rfl
                    | none => rfl
    · have hc2 : ¬ nr2.code = ZResult.success := by rw [← hco]; exact hc
      rw [if_pos hc, if_pos hc2]
      simp only [createFindResult, hco]
      rfl

/-- Witness for C10: for the cancelled-wildcard query `k3.example.` the
result is `NXDOMAIN` with the NSEC-signed flag attached even though
`FIND_DNSSEC` is unset, and toggling `FIND_DNSSEC` leaves code and flags
unchanged. -/
theorem claim10_witness :
    Except.map (fun p => (p.1.code, p.1.flags))
        (find_internal tmEx zdEx ["k3", "example"] rrA false ⟨false, true, false⟩) =
      Except.map (fun p => (p.1.code, p.1.flags))
        (find_internal tmEx zdEx ["k3", "example"] rrA false ⟨false, false, false⟩) ∧
    (FindResultFlags.mk false true false).nsec3Signed =
      ((ZResult.nxdomain = ZResult.nxrrset || ZResult.nxdomain = ZResult.nxdomain ||
        (FindResultFlags.mk false true false).wildcard) && zdEx.nsec3Signed) ∧
    (FindResultFlags.mk false true false).nsecSigned =
      ((ZResult.nxdomain = ZResult.nxrrset || ZResult.nxdomain = ZResult.nxdomain ||
        (FindResultFlags.mk false true false).wildcard) && !zdEx.nsec3Signed &&
        zdEx.signedZone) :=
  claim10_signed_flags tmEx zdEx ["k3", "example"] rrA false false false false
    ⟨.nxdomain, Option.none, ⟨false, true, false⟩, Option.none, Option.none⟩ [] rfl

/-- Helper: in non-recursive mode the `findNSEC3` loop body always returns
on its first iteration when the label count is within range. -/
theorem findNSEC3Go_nonrec (tm : NSEC3TreeModel) (cov : Option ZoneNode)
    (olabels labels fuel : Nat) (hle : olabels ≤ labels) :
    ∃ r, findNSEC3Go tm false cov olabels labels (fuel + 1) = .ok r := by
  rw [findNSEC3Go]
  rw [if_neg (by omega)]
  cases tm.lookup labels with
  | exact node => exact ⟨_, rfl⟩
  | stop lastNode orderNeg => exact ⟨_, rfl⟩

/-- Helper: with the fuel the caller supplies, the recursive `findNSEC3`
loop fails exactly when no label count in range yields an exact hash
match, and then with the broken-zone error. -/
theorem findNSEC3Go_rec_error (tm : NSEC3TreeModel) (olabels : Nat)
    (ho : 1 ≤ olabels) :
    ∀ fuel labels cov e, fuel = labels + 1 - olabels →
      (findNSEC3Go tm true cov olabels labels fuel = .error e ↔
        (e = .dataSourceError ∧
         ∀ l, olabels ≤ l → l ≤ labels → (tm.lookup l).isExact = false)) := by
  intro fuel
  induction fuel with
  | zero =>
      intro labels cov e hf
      rw [findNSEC3Go]
      constructor
      · intro hh
        injection hh with hh
        refine ⟨hh.symm, fun l hl1 hl2 => ?_⟩
        omega
      · rintro ⟨rfl, -⟩
        rfl
  | succ f ih =>
      intro labels cov e hf
      rw [findNSEC3Go]
      by_cases hlab : labels < olabels
      · rw [if_pos hlab]
        constructor
        · intro hh
          injection hh with hh
          refine ⟨hh.symm, fun l hl1 hl2 => ?_⟩
          omega
        · rintro ⟨rfl, -⟩
          rfl
      · rw [if_neg hlab]
        cases hl : tm.lookup labels with
        | exact node =>
            constructor
            · intro hh
              simp at hh
            · rintro ⟨rfl, hall⟩
              have hx := hall labels (by omega) (le_refl _)
              rw [hl] at hx
              simp [N3Find.isExact] at hx
        | stop lastNode orderNeg =>
            dsimp only
            rw [if_neg (show ¬((!true) = true) by decide)]
            rw [ih (labels - 1) _ e (by omega)]
            constructor
            · rintro ⟨rfl, hall⟩
              refine ⟨rfl, fun l hl1 hl2 => ?_⟩
              rcases Nat.lt_or_ge l labels with hlt | hge
              · exact hall l hl1 (by omega)
              · have hx : l = labels := by omega
                subst hx
                rw [hl]
                rfl
            · rintro ⟨rfl, hall⟩
              exact ⟨rfl, fun l hl1 hl2 => hall l hl1 (by omega)⟩

/-- C7 — `findNSEC3` fails with `DataSourceError` on a non-NSEC3-signed
zone, with `OutOfZone` when the name's relation to the origin is neither
`EQUAL` nor `SUBDOMAIN`, and in recursive mode with `DataSourceError` when
the loop over label counts exhausts without an exact hash match; these are
the only failure exits. -/
theorem claim7_findNSEC3_errors (tm : NSEC3TreeModel) (zd : ZoneDataM)
    (rel : Relation) (qlabels olabels : Nat) (recursive : Bool) (e : DsrcErr)
    (ho : 1 ≤ olabels) (hq : olabels ≤ qlabels) :
    findNSEC3 tm zd rel qlabels olabels recursive = .error e ↔
      ((zd.nsec3Signed = false ∧ e = .dataSourceError) ∨
       (zd.nsec3Signed = true ∧ ¬(rel = .equal ∨ rel = .subdomain) ∧
        e = .outOfZone) ∨
       (zd.nsec3Signed = true ∧ (rel = .equal ∨ rel = .subdomain) ∧
        recursive = true ∧ e = .dataSourceError ∧
        ∀ l, olabels ≤ l → l ≤ qlabels → (tm.lookup l).isExact = false)) := by
  unfold findNSEC3
  by_cases hs : zd.nsec3Signed = true
  · rw [if_neg (by simp [hs])]
    by_cases hr : rel ≠ Relation.equal ∧ rel ≠ Relation.subdomain
    · rw [if_pos hr]
      constructor
      · intro hh
        injection hh with hh
        exact Or.inr (Or.inl ⟨hs, by rintro (h | h) <;> simp [h] at hr, hh.symm⟩)
      · rintro (⟨h1, -⟩ | ⟨-, -, rfl⟩ | ⟨-, h2, -⟩)
        · rw [hs] at h1
          cases h1
        · rfl
        · rcases h2 with h | h <;> simp [h] at hr
    · rw [if_neg hr]
      have hrel2 : rel = .equal ∨ rel = .subdomain := by
        rcases not_and_or.mp hr with h | h
        · exact Or.inl (not_not.mp h)
        · exact Or.inr (not_not.mp h)
      cases recursive with
      | false =>
          have hfe : qlabels + 1 - olabels = (qlabels - olabels) + 1 := by omega
          rw [hfe]
          obtain ⟨r, hrr⟩ :=
            findNSEC3Go_nonrec tm Option.none olabels qlabels (qlabels - olabels) hq
          rw [hrr]
          constructor
          · intro hh
            simp at hh
          · rintro (⟨h1, -⟩ | ⟨-, h2, -⟩ | ⟨-, -, h3, -⟩)
            · rw [hs] at h1
              cases h1
            · exact absurd hrel2 h2
            · cases h3
      | true =>
          rw [findNSEC3Go_rec_error tm olabels ho (qlabels + 1 - olabels) qlabels
            Option.none e (by omega)]
          constructor
          · rintro ⟨rfl, hall⟩
            exact Or.inr (Or.inr ⟨hs, hrel2, rfl, rfl, hall⟩)
          · rintro (⟨h1, -⟩ | ⟨-, h2, -⟩ | ⟨-, -, -, rfl, hall⟩)
            · rw [hs] at h1
              cases h1
            · exact absurd hrel2 h2
            · exact ⟨rfl, hall⟩
  · rw [if_pos (by simp [Bool.not_eq_true] at hs; simp [hs])]
    constructor
    · intro hh
      injection hh with hh
      exact Or.inl ⟨by simpa using hs, hh.symm⟩
    · rintro (⟨-, rfl⟩ | ⟨h1, -⟩ | ⟨h1, -⟩)
      · rfl
      · exact absurd h1 hs
      · exact absurd h1 hs

/-- Witness for C7: a zone whose NSEC3 tree never matches exactly makes the
recursive search exhaust and fail with the broken-zone `DataSourceError`;
the error characterization holds at this concrete input. -/
theorem claim7_witness :
    findNSEC3 tmN3bad zdN3 .subdomain 3 1 true = .error .dataSourceError ∧
    (findNSEC3 tmN3bad zdN3 .subdomain 3 1 true = .error .dataSourceError ↔
      ((zdN3.nsec3Signed = false ∧ DsrcErr.dataSourceError = .dataSourceError) ∨
       (zdN3.nsec3Signed = true ∧
        ¬(Relation.subdomain = .equal ∨ Relation.subdomain = .subdomain) ∧
        DsrcErr.dataSourceError = .outOfZone) ∨
       (zdN3.nsec3Signed = true ∧
        (Relation.subdomain = .equal ∨ Relation.subdomain = .subdomain) ∧
        true = true ∧ DsrcErr.dataSourceError = .dataSourceError ∧
        ∀ l, 1 ≤ l → l ≤ 3 → (tmN3bad.lookup l).isExact = false))) :=
  ⟨rfl, claim7_findNSEC3_errors tmN3bad zdN3 .subdomain 3 1 true .dataSourceError
    (by decide) (by decide)⟩

/-- C8 — when the NSEC3 hash lookup does not match exactly, the covering
(next-closer) node is the largest node of the subtree if the comparison
order is negative with no in-order predecessor or positive with no in-order
successor (wrap-around), and otherwise the in-order predecessor of the stop
node; observed through the non-recursive `findNSEC3` result. -/
theorem claim8_covering_choice (tm : NSEC3TreeModel) (zd : ZoneDataM)
    (rel : Relation) (qlabels olabels : Nat) (lastNode : ZoneNode)
    (orderNeg : Bool)
    (hs : zd.nsec3Signed = true)
    (hrel : rel = .equal ∨ rel = .subdomain)
    (hq : olabels ≤ qlabels)
    (hl : tm.lookup qlabels = .stop lastNode orderNeg) :
    findNSEC3 tm zd rel qlabels olabels false =
      .ok ⟨false, qlabels,
            nsec3NodeRRset
              (if (orderNeg && (tm.pred lastNode).isNone) ||
                  (!orderNeg && (tm.succ lastNode).isNone) then
                some (tm.largest lastNode)
              else
                tm.pred lastNode),
            Option.none⟩ := by
  unfold findNSEC3
  rw [if_neg (by simp [hs])]
  rw [if_neg (by rcases hrel with h | h <;> simp [h])]
  have hfe : qlabels + 1 - olabels = (qlabels - olabels) + 1 := by omega
  rw [hfe, findNSEC3Go]
  rw [if_neg (by omega)]
  rw [hl]
  simp

/-- Witness for C8: in the sample NSEC3 tree the query hash at two labels
stops below the smallest node with a negative order and no predecessor, so
the covering proof wraps around to the largest node. -/
theorem claim8_witness :
    findNSEC3 tmN3 zdN3 .subdomain 2 1 false =
      .ok ⟨false, 2, nsec3NodeRRset (some n3NodeB), Option.none⟩ := by
  have h := claim8_covering_choice tmN3 zdN3 .subdomain 2 1 n3NodeA true rfl
    (Or.inr rfl) (by decide) rfl
  rw [h]
  rfl

end ZoneFinderModel
